import Mathlib

/-!
# Verification of the executor-gm-bot core components

Shallow embedding of the fault-tolerant backend-selection protocol
(`src/core/circuit_breaker.py`, `src/core/model_router.py`), the durable
task queue (`src/core/task_queue.py`) and the crash-recovery run-state
tracking (`src/core/power_recovery.py`), together with proofs about the
claims of the natural-language specification.

Conventions of the embedding:
* wall-clock instants (`datetime.now()`) are natural numbers counted in
  microseconds (the resolution of Python's `timedelta`); database
  timestamps (`CURRENT_TIMESTAMP`) are natural numbers counted in seconds;
* Python dictionaries keyed by service name become total functions
  `String → _` whose value at an absent key is the `.get`-default of the
  source; the `opened_at` dictionary, which the source indexes without a
  default, becomes an `Option Nat` field (`none` = key absent, indexing
  raises `KeyError`);
* raised exceptions become an explicit `PyExc` sum type threaded through
  `Except`;
* `time.sleep` and the uniform jitter only delay execution and are not
  observable in any return value, so they are dropped from the embedding.
-/

/-- `CircuitState` of `src/core/circuit_breaker.py`: `closed` = CLOSED,
`opened` = OPEN, `halfOpen` = HALF_OPEN (the Lean keyword `open` forces
the renaming of the second constructor). -/
inductive CircuitState where
  | closed
  | opened
  | halfOpen
deriving DecidableEq, Repr

/-- Constructor arguments of `CircuitBreaker.__init__`: `failure_threshold`,
`timeout` (seconds), `success_threshold`. -/
structure BreakerConfig where
  failure_threshold : Nat
  timeout : Nat
  success_threshold : Nat
deriving DecidableEq, Repr

/-- The per-service entries of the four state dictionaries of
`CircuitBreaker` (`failures`, `successes`, `state`, `opened_at`), read at
one service key.  A key never written has the default entry
`⟨0, 0, .closed, none⟩` mirroring the `.get(name, 0)` /
`.get(name, CircuitState.CLOSED)` defaults of the source; `opened_at` is
indexed without a default in the source, hence the `Option`. -/
structure BreakerState where
  failures : Nat
  successes : Nat
  cstate : CircuitState
  opened_at : Option Nat
deriving DecidableEq, Repr

/-- The state of a service key that was never touched. -/
def freshBreaker : BreakerState := ⟨0, 0, .closed, none⟩

/-- `CircuitBreaker._on_success`: in HALF_OPEN, bump the success counter and
close (zeroing both counters) once it reaches `success_threshold`;
otherwise reset the failure counter. -/
def onSuccess (cfg : BreakerConfig) (b : BreakerState) : BreakerState :=
  if b.cstate = .halfOpen then
    let s := b.successes + 1
    if cfg.success_threshold ≤ s then
      { b with cstate := .closed, failures := 0, successes := 0 }
    else
      { b with successes := s }
  else
    { b with failures := 0 }

/-- `CircuitBreaker._on_failure`: bump the failure counter; at
`failure_threshold`, transition to OPEN, stamp `opened_at := now` and zero
the success counter. -/
def onFailure (cfg : BreakerConfig) (now : Nat) (b : BreakerState) : BreakerState :=
  let f := b.failures + 1
  if cfg.failure_threshold ≤ f then
    { failures := f, successes := 0, cstate := .opened, opened_at := some now }
  else
    { b with failures := f }

/-- Outcome of one `CircuitBreaker.call` on one service key.
`circuitOpen r` = `CircuitBreakerOpenError` raised with `r` remaining
seconds, the wrapped operation was not invoked and the state is unchanged;
`keyError` = the `opened_at[service_name]` lookup raised (state OPEN but no
recorded opening instant — unreachable from a fresh breaker);
`executed ok b'` = the operation ran with outcome `ok` and the bookkeeping
(`_on_success` / `_on_failure`) produced the new state `b'` (on `ok = false`
the underlying exception is re-raised after bookkeeping). -/
inductive CallOut where
  | circuitOpen (remaining : Nat)
  | keyError
  | executed (ok : Bool) (b' : BreakerState)
deriving DecidableEq, Repr

/-- `CircuitBreaker.call` on one service key at instant `now`
(microseconds), where `outcome` tells whether the wrapped operation would
succeed.  When OPEN: move to HALF_OPEN only if
`elapsed > timedelta(seconds=timeout)` (strict comparison in the source),
otherwise raise `CircuitBreakerOpenError` carrying
`timeout - int(elapsed.total_seconds())` remaining seconds. -/
def cbCall (cfg : BreakerConfig) (now : Nat) (b : BreakerState) (outcome : Bool) : CallOut :=
  if b.cstate = .opened then
    match b.opened_at with
    | none => .keyError
    | some t0 =>
      let elapsed := now - t0
      if cfg.timeout * 1000000 < elapsed then
        let b1 := { b with cstate := .halfOpen }
        if outcome then .executed true (onSuccess cfg b1)
        else .executed false (onFailure cfg now b1)
      else
        .circuitOpen (cfg.timeout - elapsed / 1000000)
  else
    if outcome then .executed true (onSuccess cfg b)
    else .executed false (onFailure cfg now b)

/-- One call of a trace: the state after `cbCall` (unchanged when the call
failed fast or raised `KeyError`). -/
def cbStep (cfg : BreakerConfig) (b : BreakerState) (e : Nat × Bool) : BreakerState :=
  match cbCall cfg e.1 b e.2 with
  | .executed _ b' => b'
  | _ => b

/-- Run a sequence of calls (instant, operation outcome) from the fresh
state of a service key. -/
def cbRun (cfg : BreakerConfig) (evts : List (Nat × Bool)) : BreakerState :=
  evts.foldl (cbStep cfg) freshBreaker

/-- A per-service breaker state reachable by some sequence of calls from the
fresh state. -/
def ReachableCB (cfg : BreakerConfig) (b : BreakerState) : Prop :=
  ∃ evts, cbRun cfg evts = b

/-- The inductive invariant of the breaker state machine: OPEN or HALF_OPEN
states carry at least `failure_threshold` failures, OPEN states carry a
zero success counter and a recorded opening instant, and HALF_OPEN states
carry a success counter strictly below `success_threshold`. -/
def InvCB (cfg : BreakerConfig) (b : BreakerState) : Prop :=
  ((b.cstate = .opened ∨ b.cstate = .halfOpen) → cfg.failure_threshold ≤ b.failures)
  ∧ (b.cstate = .opened → b.successes = 0 ∧ b.opened_at ≠ none)
  ∧ (b.cstate = .halfOpen → b.successes < cfg.success_threshold)

/-- Iterate calls whose wrapped operation always succeeds, all at instant
`now`. -/
def callsSucc (cfg : BreakerConfig) (now : Nat) : Nat → BreakerState → BreakerState
  | 0, b => b
  | j + 1, b => callsSucc cfg now j (cbStep cfg b (now, true))

/-- `ModelTier` of `src/core/model_router.py`. -/
inductive ModelTier where
  | free
  | standard
  | premium
  | critical
deriving DecidableEq, Repr

/-- One value of the `ModelRouter.MODELS` registry: tier and provider
(the optional `rpm` entry of `gemini-flash-lite` is read nowhere and is
omitted). -/
structure ModelInfo where
  tier : ModelTier
  provider : String
deriving DecidableEq, Repr

/-- The static `ModelRouter.MODELS` registry, as a lookup function
mirroring `self.MODELS.get(model_name, {})`. -/
def MODELS (name : String) : Option ModelInfo :=
  if name = "opencode-claude" then some ⟨.free, "opencode"⟩
  else if name = "opencode-openai" then some ⟨.free, "opencode"⟩
  else if name = "opencode-google" then some ⟨.free, "opencode"⟩
  else if name = "opencode-kimi" then some ⟨.free, "opencode"⟩
  else if name = "opencode-glm" then some ⟨.free, "opencode"⟩
  else if name = "gemini-flash-lite" then some ⟨.free, "google"⟩
  else if name = "gemini-3-pro" then some ⟨.standard, "google-ai-pro"⟩
  else if name = "gemini-3-flash" then some ⟨.standard, "google-ai-pro"⟩
  else if name = "chatgpt-oss120b" then some ⟨.standard, "google-ai-pro"⟩
  else if name = "kimi-2.5" then some ⟨.standard, "google-ai-pro"⟩
  else if name = "glm-4.7" then some ⟨.standard, "google-ai-pro"⟩
  else if name = "claude-4.5-sonnet" then some ⟨.premium, "google-ai-pro"⟩
  else if name = "chatgpt-5.2-plus" then some ⟨.premium, "openai-plus"⟩
  else if name = "claude-4.5-opus" then some ⟨.critical, "google-ai-pro"⟩
  else none

/-- A credential entry of the persisted key pool (`self.keys`).  The
passive fields `tier` and `added`, which no modeled operation reads, are
omitted; `key` is the secret string. -/
structure KeyEntry where
  provider : String
  key : String
  usage_count : Nat
  last_used : Option Nat
  rate_limited_until : Option Nat
deriving DecidableEq, Repr

instance : Inhabited KeyEntry := ⟨⟨"", "", 0, none, none⟩⟩

/-- Mutable state of a `ModelRouter` instance: the credential pool, the
shared round-robin index, and the per-service circuit breaker
dictionaries. -/
structure RouterState where
  keys : List KeyEntry
  current_key_index : Nat
  breakers : String → BreakerState

/-- The breaker configuration hardcoded in `ModelRouter.__init__`:
`CircuitBreaker(failure_threshold=5, timeout=60, success_threshold=2)`. -/
def routerCfg : BreakerConfig := ⟨5, 60, 2⟩

/-- The in-place mutation of the selected credential entry:
`key_data["usage_count"] += 1; key_data["last_used"] = now`. -/
def bumpUsage (now : Nat) (k : KeyEntry) : KeyEntry :=
  { k with usage_count := k.usage_count + 1, last_used := some now }

/-- `k.get("provider") == provider`, the filter building `provider_keys`. -/
def providerPred (provider : String) (k : KeyEntry) : Bool :=
  k.provider == provider

/-- Apply `f` to the element of `l` that is the `i`-th one satisfying `p`,
leaving everything else unchanged.  This realises the aliasing of the
source: the filtered list `provider_keys` holds references into
`self.keys`, so mutating its `i`-th element mutates that entry of the full
pool. -/
def updateNthMatch (p : KeyEntry → Bool) (f : KeyEntry → KeyEntry) :
    Nat → List KeyEntry → List KeyEntry
  | _, [] => []
  | 0, x :: xs => if p x then f x :: xs else x :: updateNthMatch p f 0 xs
  | i + 1, x :: xs =>
    if p x then x :: updateNthMatch p f i xs else x :: updateNthMatch p f (i + 1) xs

/-- `ModelRouter._select_key_for_provider`: filter the pool by provider;
empty pool returns `None`; otherwise pick the entry at
`current_key_index % len(provider_keys)`, advance the shared index, bump
the chosen entry's `usage_count` and stamp its `last_used`, and — the
final line of the source — return `key_data.get("key")`: the key STRING,
not the entry dict (its declared `Optional[Dict]` return type
notwithstanding). -/
def selectKeyForProvider (now : Nat) (st : RouterState) (provider : String) :
    Option String × RouterState :=
  let provider_keys := st.keys.filter (providerPred provider)
  if provider_keys.isEmpty then
    (none, st)
  else
    let i := st.current_key_index % provider_keys.length
    let key_data := provider_keys.getD i default
    (some key_data.key,
      { keys := updateNthMatch (providerPred provider) (bumpUsage now) i st.keys
        current_key_index := st.current_key_index + 1
        breakers := st.breakers })

/-- Iterate `_select_key_for_provider` for one provider, collecting the
returned key strings. -/
def selectKeys (now : Nat) (provider : String) :
    Nat → RouterState → List (Option String) × RouterState
  | 0, st => ([], st)
  | n + 1, st =>
    let (k, st1) := selectKeyForProvider now st provider
    let (rest, st2) := selectKeys now provider n st1
    (k :: rest, st2)

/-- `ModelRouter.mark_rate_limited`: stamp `rate_limited_until` on every
entry whose key matches, and advance the round-robin index. -/
def mark_rate_limited (now : Nat) (st : RouterState) (key : String) : RouterState :=
  { keys := st.keys.map (fun k =>
      if k.key == key then { k with rate_limited_until := some now } else k)
    current_key_index := st.current_key_index + 1
    breakers := st.breakers }

/-- The exceptions raised along the modeled code paths.
`circuitOpenErr` = `CircuitBreakerOpenError` (with remaining seconds);
`valueError` = `ValueError`; `typeError` = `TypeError`;
`keyErr` = `KeyError`; `recursionErr` = `RecursionError` (fuel
exhaustion of the embedding; Python's recursion limit). -/
inductive PyExc where
  | circuitOpenErr (remaining : Nat)
  | valueError (msg : String)
  | typeError (msg : String)
  | keyErr
  | recursionErr
deriving DecidableEq, Repr

/-- `isinstance(e, CircuitBreakerOpenError)`. -/
def PyExc.isCircuitOpen : PyExc → Bool
  | .circuitOpenErr _ => true
  | _ => false

/-- The result dictionaries returned by the router's selection paths.
Keys absent from a particular dictionary are `none` /
`requires_approval := false` defaults. -/
structure RoutingResult where
  model : String
  provider : Option String := none
  tier : Option ModelTier := none
  api_key : Option String := none
  api_key_preview : Option String := none
  requires_approval : Bool := false
  message : Option String := none
deriving DecidableEq, Repr

/-- The key masking of `_get_key_logic`: first 8 + "..." + last 4
characters when longer than 12, otherwise a fixed mask. -/
def maskPreview (k : String) : String :=
  if 12 < k.length then k.take 8 ++ "..." ++ k.drop (k.length - 4) else "***"

/-- Overwrite one service key of the breaker dictionaries. -/
def setBreaker (st : RouterState) (service : String) (b : BreakerState) : RouterState :=
  { keys := st.keys
    current_key_index := st.current_key_index
    breakers := fun s => if s = service then b else st.breakers s }

/-- `ModelRouter._get_model_with_key` (with the inner `_get_key_logic` and
the wrapping `self.circuit_breaker.call` inlined, and recursion bounded by
`fuel`; the source recurses through `_get_model_with_key("opencode-claude")`
when a paid tier has no credential, so `fuel ≥ 2` covers every run that
Python would complete).

Faithful to the source bug: `_select_key_for_provider` returns the key
string, and `_get_key_logic` then evaluates `key_entry["key"]` — indexing
a `str` with a string — which raises `TypeError` for every paid-tier model
with a non-empty credential pool whose selected key is a non-empty string.
An empty (falsy) key string takes the same branch as an empty pool:
the free fallback recursion.  Exception messages are abridged.  The
breaker bookkeeping (`_on_success` / `_on_failure`) runs on the state as
left by the inner logic, and `CircuitBreakerOpenError` raised by the gate
is re-raised unchanged by the `except` clause of the source. -/
def getModelWithKey :
    Nat → Nat → RouterState → String → Except PyExc RoutingResult × RouterState
  | 0, _, st, _ => (.error .recursionErr, st)
  | fuel + 1, now, st, model_name =>
    match MODELS model_name with
    | none => (.error (.valueError ("Unknown model: " ++ model_name)), st)
    | some info =>
      let provider := info.provider
      let tier := info.tier
      let service := "provider_" ++ provider
      let b := st.breakers service
      let gate : Except PyExc RouterState :=
        if b.cstate = .opened then
          match b.opened_at with
          | none => .error .keyErr
          | some t0 =>
            if routerCfg.timeout * 1000000 < now - t0 then
              .ok (setBreaker st service { b with cstate := .halfOpen })
            else
              .error (.circuitOpenErr (routerCfg.timeout - (now - t0) / 1000000))
        else .ok st
      match gate with
      | .error e => (.error e, st)
      | .ok st1 =>
        let logic : Except PyExc RoutingResult × RouterState :=
          if tier = .free then
            (.ok { model := model_name
                   provider := some provider
                   tier := some tier
                   api_key := none
                   api_key_preview := some "***"
                   requires_approval := false }, st1)
          else
            match selectKeyForProvider now st1 provider with
            | (none, st2) =>
              if tier ≠ .free then getModelWithKey fuel now st2 "opencode-claude"
              else (.error (.valueError ("No API key available for " ++ provider)), st2)
            | (some key_str, st2) =>
              if key_str = "" then
                (if tier ≠ .free then getModelWithKey fuel now st2 "opencode-claude"
                 else (.error (.valueError ("No API key available for " ++ provider)), st2))
              else
                (.error (.typeError "string indices must be integers"), st2)
        match logic with
        | (.ok r, st3) =>
          (.ok r, setBreaker st3 service (onSuccess routerCfg (st3.breakers service)))
        | (.error e, st3) =>
          (.error e, setBreaker st3 service (onFailure routerCfg now (st3.breakers service)))

/-- The retry loop of `select_with_fallback` step 1, abstracted over the
behaviour `acquire` of `self._get_model_with_key(preferred_model)` on an
opaque state `σ`: up to `n` attempts; a success returns immediately; a
`CircuitBreakerOpenError` breaks out of the loop at once; any other
exception is caught and the next attempt follows (after a sleep, which is
unobservable and dropped). -/
def retryLoop {σ : Type} (acquire : String → σ → Except PyExc RoutingResult × σ)
    (preferred : String) : Nat → σ → Option RoutingResult × σ
  | 0, s => (none, s)
  | n + 1, s =>
    match acquire preferred s with
    | (.ok r, s2) => (some r, s2)
    | (.error e, s2) =>
      if e.isCircuitOpen then (none, s2) else retryLoop acquire preferred n s2

/-- Step 2 of `select_with_fallback`: try each fallback model once, in
order; the first success wins; every exception is caught and the loop
continues. -/
def chainLoop {σ : Type} (acquire : String → σ → Except PyExc RoutingResult × σ) :
    List String → σ → Option RoutingResult × σ
  | [], s => (none, s)
  | m :: ms, s =>
    match acquire m s with
    | (.ok r, s2) => (some r, s2)
    | (.error _, s2) => chainLoop acquire ms s2

/-- The hardcoded ultimate FREE-tier fallback dictionary of
`select_with_fallback` step 3. -/
def ultimateFallback : RoutingResult :=
  { model := "opencode-claude"
    provider := some "opencode"
    tier := some ModelTier.free
    api_key := none
    requires_approval := false }

/-- `max_retries = max_retries or self.MAX_RETRIES`: `None` and the falsy
`0` are replaced by `MAX_RETRIES = 3`; any other integer (negative ones
included — they are truthy in Python) is kept. -/
def effectiveRetries : Option Int → Int
  | none => 3
  | some k => if k = 0 then 3 else k

/-- `ModelRouter.select_with_fallback`, abstracted over the behaviour
`acquire` of `_get_model_with_key` (each call may mutate an opaque state
`σ` and either return a routing result or raise).  Every exception of the
body is caught by the source (`except Exception` in the retry loop, a
bare `except` per fallback model), so the embedding returns a plain
`RoutingResult`: the function cannot raise. -/
def selectWithFallback {σ : Type}
    (acquire : String → σ → Except PyExc RoutingResult × σ)
    (preferred : String) (fallback_chain : Option (List String))
    (max_retries : Option Int) (s : σ) : RoutingResult × σ :=
  let mr := effectiveRetries max_retries
  match retryLoop acquire preferred mr.toNat s with
  | (some r, s1) => (r, s1)
  | (none, s1) =>
    let step2 : Option RoutingResult × σ :=
      match fallback_chain with
      | some ms => chainLoop acquire ms s1
      | none => (none, s1)
    match step2 with
    | (some r, s2) => (r, s2)
    | (none, s2) => (ultimateFallback, s2)

/-- `TaskStatus` of `src/core/task_queue.py` (stored as strings in the
database; the round trip through the string column is the identity). -/
inductive TaskStatus where
  | pending
  | in_progress
  | completed
  | failed
  | cancelled
deriving DecidableEq, Repr

/-- `TaskPriority` of `src/core/task_queue.py`. -/
inductive TaskPriority where
  | low
  | normal
  | high
  | critical
deriving DecidableEq, Repr

/-- `TaskPriority.value`, the integer stored in the `priority` column. -/
def TaskPriority.val : TaskPriority → Nat
  | .low => 0
  | .normal => 1
  | .high => 2
  | .critical => 3

/-- One row of the `tasks` table.  Timestamps are seconds (the resolution
of SQLite `CURRENT_TIMESTAMP`); `payload` is the opaque serialized JSON
string (the `json.dumps`/`json.loads` round trip is the identity and is
not modeled). -/
structure TaskRow where
  id : Nat
  name : String
  description : String
  priority : Nat
  status : TaskStatus
  assigned_to : Option String
  payload : Option String
  created_at : Nat
  updated_at : Nat
  started_at : Option Nat
  completed_at : Option Nat
  error : Option String
deriving DecidableEq, Repr

/-- The task database: rows in insertion (rowid) order, the
`AUTOINCREMENT` counter, and `sqlite3.Connection.total_changes` — the
number of rows inserted, updated or deleted since the connection was
opened. -/
structure QueueState where
  tasks : List TaskRow
  next_id : Nat
  total_changes : Nat
deriving DecidableEq, Repr

/-- A freshly initialised database (`_init_database`): no rows, ids from
1, no changes recorded on the connection. -/
def emptyQueue : QueueState := ⟨[], 1, 0⟩

/-- `TaskQueue.add_task`: INSERT a PENDING row with
`created_at = updated_at = CURRENT_TIMESTAMP`, return its id. -/
def add_task (now : Nat) (st : QueueState) (name description : String)
    (priority : TaskPriority) (assigned_to : Option String)
    (payload : Option String) : Nat × QueueState :=
  let t : TaskRow :=
    { id := st.next_id
      name := name
      description := description
      priority := priority.val
      status := .pending
      assigned_to := assigned_to
      payload := payload
      created_at := now
      updated_at := now
      started_at := none
      completed_at := none
      error := none }
  (st.next_id,
    { tasks := st.tasks ++ [t]
      next_id := st.next_id + 1
      total_changes := st.total_changes + 1 })

/-- `a` strictly precedes `b` under `ORDER BY priority DESC, created_at
ASC`. -/
def betterTask (a b : TaskRow) : Bool :=
  decide (b.priority < a.priority)
    || (decide (a.priority = b.priority) && decide (a.created_at < b.created_at))

/-- The WHERE clause of `get_next_task`: `status = 'pending'`, and
`assigned_to = ?` only when the Python argument is truthy (neither `None`
nor the empty string). -/
def eligibleTask (assigned_to : Option String) (t : TaskRow) : Bool :=
  t.status == .pending &&
    (match assigned_to with
     | some a => if a = "" then true else t.assigned_to == some a
     | none => true)

/-- `ORDER BY priority DESC, created_at ASC LIMIT 1` over a candidate
list: an element no other candidate strictly precedes (on a full tie the
earliest row in table order is kept — SQLite leaves the choice among fully
tied rows unspecified, and this is one deterministic realisation). -/
def pickBest : List TaskRow → Option TaskRow
  | [] => none
  | t :: ts =>
    match pickBest ts with
    | none => some t
    | some u => if betterTask u t then some u else some t

/-- `TaskQueue.get_next_task`: a SELECT — it returns the chosen row and
leaves the table untouched. -/
def get_next_task (st : QueueState) (assigned_to : Option String) :
    Option TaskRow × QueueState :=
  (pickBest (st.tasks.filter (eligibleTask assigned_to)), st)

/-- `TaskQueue.start_task`: UPDATE to IN_PROGRESS, stamping `started_at`
and `updated_at`; `total_changes` grows by the number of matched rows. -/
def start_task (now : Nat) (st : QueueState) (task_id : Nat) : QueueState :=
  { tasks := st.tasks.map (fun t =>
      if t.id == task_id then
        { t with status := .in_progress, started_at := some now, updated_at := now }
      else t)
    next_id := st.next_id
    total_changes := st.total_changes + st.tasks.countP (fun t => t.id == task_id) }

/-- `TaskQueue.complete_task`: UPDATE to COMPLETED, stamping
`completed_at` and `updated_at`. -/
def complete_task (now : Nat) (st : QueueState) (task_id : Nat) : QueueState :=
  { tasks := st.tasks.map (fun t =>
      if t.id == task_id then
        { t with status := .completed, completed_at := some now, updated_at := now }
      else t)
    next_id := st.next_id
    total_changes := st.total_changes + st.tasks.countP (fun t => t.id == task_id) }

/-- `TaskQueue.fail_task`: UPDATE to FAILED, storing the error and
stamping `updated_at` — and, faithfully to the source, NOT touching
`completed_at`. -/
def fail_task (now : Nat) (st : QueueState) (task_id : Nat) (err : String) : QueueState :=
  { tasks := st.tasks.map (fun t =>
      if t.id == task_id then
        { t with status := .failed, error := some err, updated_at := now }
      else t)
    next_id := st.next_id
    total_changes := st.total_changes + st.tasks.countP (fun t => t.id == task_id) }

/-- The DELETE predicate of `cleanup_old_tasks`: status COMPLETED or
FAILED, and `datetime(completed_at) < datetime('now', '-D days')` — a
strict comparison that is NULL (hence false) when `completed_at` is NULL. -/
def doomedTask (now : Nat) (days : Nat) (t : TaskRow) : Bool :=
  (t.status == TaskStatus.completed || t.status == TaskStatus.failed)
    && (match t.completed_at with
        | some c => decide (c < now - days * 86400)
        | none => false)

/-- `TaskQueue.cleanup_old_tasks`: run the DELETE, then return
`self.conn.total_changes` — the connection-lifetime change counter, not
the number of rows this statement removed. -/
def cleanup_old_tasks (now : Nat) (st : QueueState) (days : Nat) : Nat × QueueState :=
  let removed := st.tasks.countP (doomedTask now days)
  let deleted := st.total_changes + removed
  (deleted,
    { tasks := st.tasks.filter (fun t => ! doomedTask now days t)
      next_id := st.next_id
      total_changes := deleted })

/-- The persisted run-state record of `src/core/power_recovery.py`
(`last_state.json`); `none` = the file does not exist. -/
structure LastStateRec where
  status : String
  timestamp : Nat
deriving DecidableEq, Repr

/-- `PowerRecovery.mark_running`: write `{"status": "running", ...}`. -/
def mark_running (now : Nat) : Option LastStateRec := some ⟨"running", now⟩

/-- `PowerRecovery.mark_shutdown`: write `{"status": "stopped", ...}`. -/
def mark_shutdown (now : Nat) : Option LastStateRec := some ⟨"stopped", now⟩

/-- `PowerRecovery.detect_interruption`: `False` when no run-state file
exists, otherwise `last_state.get("status") == "running"`. -/
def detect_interruption : Option LastStateRec → Bool
  | none => false
  | some r => r.status == "running"


/-- `True` exactly when the call raised (used to quantify over failing
behaviours of `_get_model_with_key`). -/
def exceptFailed {e a : Type} : Except e a → Bool
  | .error _ => true
  | .ok _ => false

/-- A router owning one `google-ai-pro` credential with a fresh breaker —
the concrete input exhibiting the paid-tier acquisition bug. -/
def sampleRouterPaid : RouterState :=
  { keys := [⟨"google-ai-pro", "AIzaSyTest1234567890", 0, none, none⟩]
    current_key_index := 0
    breakers := fun _ => freshBreaker }

/-- A router owning two credentials `k1`, `k2` for provider `p`. -/
def samplePool2 : RouterState :=
  { keys := [⟨"p", "k1", 0, none, none⟩, ⟨"p", "k2", 0, none, none⟩]
    current_key_index := 0
    breakers := fun _ => freshBreaker }

/-- The queue of the dequeue scenario: A(LOW, created 1), B(HIGH, created
2), C(HIGH, created 1), enqueued in that order. -/
def sampleQueueABC : QueueState :=
  (add_task 1
    (add_task 2
      (add_task 1 emptyQueue "A" "" TaskPriority.low none none).2
      "B" "" TaskPriority.high none none).2
    "C" "" TaskPriority.high none none).2

/-- A fresh queue after `add_task` (at instant 0) and `complete_task` of
the new task (at instant 0): one COMPLETED row, two connection changes. -/
def sampleQueueDone : QueueState :=
  complete_task 0 (add_task 0 emptyQueue "T" "" TaskPriority.normal none none).2 1

/-- A fresh queue after `add_task` and `fail_task` of the new task: one
FAILED row whose `completed_at` is NULL. -/
def sampleQueueFailedT : QueueState :=
  fail_task 0 (add_task 0 emptyQueue "F" "" TaskPriority.normal none none).2 1 "boom"


theorem invCB_fresh (cfg : BreakerConfig) : InvCB cfg freshBreaker := by
  refine ⟨?_, ?_, ?_⟩ <;> intro h <;> simp [freshBreaker] at h

theorem invCB_onSuccess_closed (cfg : BreakerConfig) (b : BreakerState)
    (hcs : b.cstate = .closed) : InvCB cfg (onSuccess cfg b) := by
  unfold onSuccess
  rw [if_neg (by rw [hcs]; intro h; exact CircuitState.noConfusion h)]
  refine ⟨?_, ?_, ?_⟩ <;> intro h <;> simp [hcs] at h

theorem invCB_onSuccess_halfOpen (cfg : BreakerConfig) (b : BreakerState)
    (hcs : b.cstate = .halfOpen) (hf : cfg.failure_threshold ≤ b.failures) :
    InvCB cfg (onSuccess cfg b) := by
  unfold onSuccess
  rw [if_pos hcs]
  by_cases hth : cfg.success_threshold ≤ b.successes + 1
  · rw [if_pos hth]
    refine ⟨?_, ?_, ?_⟩ <;> intro h <;> simp at h
  · rw [if_neg hth]
    refine ⟨fun _ => hf, ?_, fun _ => by
      show b.successes + 1 < cfg.success_threshold
      omega⟩
    intro h
    rw [show ({ b with successes := b.successes + 1 } : BreakerState).cstate = b.cstate from rfl, hcs] at h
    exact absurd h (by intro h; exact CircuitState.noConfusion h)

theorem invCB_onFailure_notOpen (cfg : BreakerConfig) (now : Nat) (b : BreakerState)
    (hcs : b.cstate ≠ .opened)
    (hho : b.cstate = .halfOpen → cfg.failure_threshold ≤ b.failures) :
    InvCB cfg (onFailure cfg now b) := by
  unfold onFailure
  by_cases hth : cfg.failure_threshold ≤ b.failures + 1
  · rw [if_pos hth]
    exact ⟨fun _ => hth, fun _ => ⟨rfl, by simp⟩, fun h => by simp at h⟩
  · rw [if_neg hth]
    have hnho : b.cstate ≠ .halfOpen := by
      intro h
      exact hth (Nat.le_trans (hho h) (Nat.le_succ _))
    have hcl : b.cstate = .closed := by
      cases hc : b.cstate
      · rfl
      · exact absurd hc hcs
      · exact absurd hc hnho
    refine ⟨?_, ?_, ?_⟩ <;> intro h <;>
      simp [show ({ b with failures := b.failures + 1 } : BreakerState).cstate = b.cstate from rfl, hcl] at h

theorem invCB_step (cfg : BreakerConfig) (b : BreakerState) (e : Nat × Bool)
    (hb : InvCB cfg b) : InvCB cfg (cbStep cfg b e) := by
  obtain ⟨h1, h2, h3⟩ := hb
  unfold cbStep cbCall
  by_cases hop : b.cstate = .opened
  · rw [if_pos hop]
    have hf : cfg.failure_threshold ≤ b.failures := h1 (Or.inl hop)
    match hoa : b.opened_at with
    | none => exact ⟨h1, h2, h3⟩
    | some t0 =>
      simp only
      by_cases helapsed : cfg.timeout * 1000000 < e.1 - t0
      · rw [if_pos helapsed]
        cases e.2 with
        | true =>
          exact invCB_onSuccess_halfOpen cfg _ rfl hf
        | false =>
          exact invCB_onFailure_notOpen cfg e.1 _ (by intro h; exact CircuitState.noConfusion h)
            (fun _ => hf)
      · rw [if_neg helapsed]
        cases e.2 <;> exact ⟨h1, h2, h3⟩
  · rw [if_neg hop]
    cases e.2 with
    | true =>
      cases hc : b.cstate with
      | closed => exact invCB_onSuccess_closed cfg b hc
      | opened => exact absurd hc hop
      | halfOpen => exact invCB_onSuccess_halfOpen cfg b hc (h1 (Or.inr hc))
    | false =>
      exact invCB_onFailure_notOpen cfg e.1 b hop (fun h => h1 (Or.inr h))

theorem invCB_foldl (cfg : BreakerConfig) :
    ∀ (evts : List (Nat × Bool)) (b : BreakerState), InvCB cfg b →
      InvCB cfg (evts.foldl (cbStep cfg) b)
  | [], _, hb => hb
  | e :: es, b, hb => invCB_foldl cfg es _ (invCB_step cfg b e hb)

theorem invCB_run (cfg : BreakerConfig) (evts : List (Nat × Bool)) :
    InvCB cfg (cbRun cfg evts) :=
  invCB_foldl cfg evts freshBreaker (invCB_fresh cfg)

theorem invCB_reachable (cfg : BreakerConfig) (b : BreakerState)
    (hb : ReachableCB cfg b) : InvCB cfg b := by
  obtain ⟨evts, hevts⟩ := hb
  exact hevts ▸ invCB_run cfg evts

/-- C4 (amended): for a service key in OPEN with recorded opening instant
`t0 ≤ now`: if `elapsed ≤ timeout` the call fails fast with a
`CircuitBreakerOpenError` carrying `timeout - ⌊elapsed in seconds⌋`
remaining seconds, the wrapped operation is never invoked and no state is
mutated; if `elapsed > timeout` (strictly) the breaker transitions to
HALF_OPEN and the operation is invoked, the final state being the
`_on_success` / `_on_failure` bookkeeping of the HALF_OPEN state.  (The
claim's boundary `elapsed = timeout` belongs to the fail-fast side: the
source compares `elapsed > timedelta(seconds=self.timeout)` strictly.) -/
theorem C4_open_gate (cfg : BreakerConfig) (now t0 : Nat) (b : BreakerState)
    (outcome : Bool) (hop : b.cstate = .opened) (hoa : b.opened_at = some t0)
    (_hle : t0 ≤ now) :
    (now - t0 ≤ cfg.timeout * 1000000 →
      cbCall cfg now b outcome = .circuitOpen (cfg.timeout - (now - t0) / 1000000))
    ∧ (cfg.timeout * 1000000 < now - t0 →
      cbCall cfg now b outcome =
        .executed outcome
          (if outcome then onSuccess cfg { b with cstate := .halfOpen }
           else onFailure cfg now { b with cstate := .halfOpen })) := by
  constructor
  · intro hsmall
    unfold cbCall
    rw [if_pos hop, hoa]
    simp only [if_neg (by omega : ¬ cfg.timeout * 1000000 < now - t0)]
  · intro hbig
    unfold cbCall
    rw [if_pos hop, hoa]
    simp only [if_pos hbig]
    cases outcome <;> simp

/-- Witness for C4: a breaker with the default configuration
(failure_threshold 5, timeout 60 s, success_threshold 2), OPEN since
instant 0, probed at 30 s: the call fails fast with 30 s remaining. -/
theorem C4_open_gate_witness :
    (30000000 ≤ 60 * 1000000 →
      cbCall ⟨5, 60, 2⟩ 30000000 ⟨5, 0, .opened, some 0⟩ true
        = .circuitOpen (60 - 30000000 / 1000000))
    ∧ (60 * 1000000 < 30000000 →
      cbCall ⟨5, 60, 2⟩ 30000000 ⟨5, 0, .opened, some 0⟩ true
        = .executed true
          (if true then onSuccess ⟨5, 60, 2⟩ { failures := 5, successes := 0, cstate := .halfOpen, opened_at := some 0 }
           else onFailure ⟨5, 60, 2⟩ 30000000 { failures := 5, successes := 0, cstate := .halfOpen, opened_at := some 0 })) :=
  C4_open_gate ⟨5, 60, 2⟩ 30000000 0 ⟨5, 0, .opened, some 0⟩ true rfl rfl (by decide)

/-- Counterexample to C4 as stated: at `elapsed = timeout` exactly (breaker
OPEN since instant 0, timeout 60 s, probed at exactly 60 s) the claim says
the breaker transitions to HALF_OPEN and invokes the operation, but the
source's strict comparison `elapsed > timedelta(seconds=timeout)` fails
fast instead, raising with 0 remaining seconds. -/
theorem C4_boundary_counterexample :
    cbCall ⟨5, 60, 2⟩ 60000000 ⟨5, 0, .opened, some 0⟩ true = .circuitOpen 0 := by
  decide

theorem halfOpen_success_step (cfg : BreakerConfig) (now f s : Nat) (oa : Option Nat)
    (hlt : s + 1 < cfg.success_threshold) :
    cbStep cfg ⟨f, s, .halfOpen, oa⟩ (now, true) = ⟨f, s + 1, .halfOpen, oa⟩ := by
  unfold cbStep cbCall
  rw [if_neg (by intro h; exact CircuitState.noConfusion h)]
  show onSuccess cfg ⟨f, s, .halfOpen, oa⟩ = _
  unfold onSuccess
  rw [if_pos rfl, if_neg (by show ¬ cfg.success_threshold ≤ s + 1; omega)]

theorem halfOpen_close_step (cfg : BreakerConfig) (now f s : Nat) (oa : Option Nat)
    (hth : cfg.success_threshold ≤ s + 1) :
    cbStep cfg ⟨f, s, .halfOpen, oa⟩ (now, true) = ⟨0, 0, .closed, oa⟩ := by
  unfold cbStep cbCall
  rw [if_neg (by intro h; exact CircuitState.noConfusion h)]
  show onSuccess cfg ⟨f, s, .halfOpen, oa⟩ = _
  unfold onSuccess
  rw [if_pos rfl, if_pos (by show cfg.success_threshold ≤ s + 1; omega)]

theorem callsSucc_halfOpen_mid (cfg : BreakerConfig) (now : Nat) :
    ∀ (j f s : Nat) (oa : Option Nat), s + j < cfg.success_threshold →
      callsSucc cfg now j ⟨f, s, .halfOpen, oa⟩ = ⟨f, s + j, .halfOpen, oa⟩
  | 0, f, s, oa, _ => rfl
  | j + 1, f, s, oa, hlt => by
    rw [callsSucc, halfOpen_success_step cfg now f s oa (by omega)]
    rw [callsSucc_halfOpen_mid cfg now j f (s + 1) oa (by omega)]
    congr 1
    omega

theorem callsSucc_halfOpen_close (cfg : BreakerConfig) (now : Nat) :
    ∀ (m f s : Nat) (oa : Option Nat), 0 < m → s + m = cfg.success_threshold →
      callsSucc cfg now m ⟨f, s, .halfOpen, oa⟩ = ⟨0, 0, .closed, oa⟩
  | 1, f, s, oa, _, heq => by
    rw [callsSucc, halfOpen_close_step cfg now f s oa (by omega), callsSucc]
  | m + 2, f, s, oa, _, heq => by
    rw [callsSucc, halfOpen_success_step cfg now f s oa (by omega)]
    exact callsSucc_halfOpen_close cfg now (m + 1) f (s + 1) oa (by omega) (by omega)

theorem halfOpen_failure_reopens (cfg : BreakerConfig) (now f s : Nat) (oa : Option Nat)
    (hf : cfg.failure_threshold ≤ f) :
    cbCall cfg now ⟨f, s, .halfOpen, oa⟩ false
      = .executed false ⟨f + 1, 0, .opened, some now⟩ := by
  unfold cbCall
  rw [if_neg (by intro h; exact CircuitState.noConfusion h)]
  show CallOut.executed false (onFailure cfg now ⟨f, s, .halfOpen, oa⟩) = _
  unfold onFailure
  rw [if_pos (by show cfg.failure_threshold ≤ f + 1; omega)]

/-- C9: invariant of the breaker state machine (implicit in the source):
every state reachable from a fresh service key that is OPEN or HALF_OPEN
carries at least `failure_threshold` failures; the invariant `InvCB` is
preserved by every call; and given the failure floor, a single failed call
while HALF_OPEN re-opens the circuit (with a fresh `opened_at` stamp and a
zeroed success counter) even though `_on_failure` only re-opens once the
counter reaches the threshold. -/
theorem C9_failure_floor (cfg : BreakerConfig) :
    (∀ b, ReachableCB cfg b → (b.cstate = .opened ∨ b.cstate = .halfOpen) →
      cfg.failure_threshold ≤ b.failures)
    ∧ (∀ b e, InvCB cfg b → InvCB cfg (cbStep cfg b e))
    ∧ (∀ f s oa now, cfg.failure_threshold ≤ f →
        cbCall cfg now ⟨f, s, .halfOpen, oa⟩ false
          = .executed false ⟨f + 1, 0, .opened, some now⟩) :=
  ⟨fun b hreach => (invCB_reachable cfg b hreach).1,
   fun b e hb => invCB_step cfg b e hb,
   fun f s oa now hf => halfOpen_failure_reopens cfg now f s oa hf⟩

/-- Witness for C9 at the configuration `⟨1, 60, 2⟩`: the state reached by
one failure at instant 0 followed by one success at instant 60000001 (the
OPEN window expired, so the breaker is HALF_OPEN with one success and one
recorded failure) satisfies the failure floor, and a failed call at
instant 5 re-opens the circuit. -/
theorem C9_failure_floor_witness :
    (1 : Nat) ≤ (BreakerState.mk 1 1 .halfOpen (some 0)).failures
    ∧ cbCall ⟨1, 60, 2⟩ 5 ⟨1, 1, .halfOpen, some 0⟩ false
        = .executed false ⟨2, 0, .opened, some 5⟩ :=
  ⟨(C9_failure_floor ⟨1, 60, 2⟩).1 ⟨1, 1, .halfOpen, some 0⟩
      ⟨[(0, false), (60000001, true)], by decide⟩ (Or.inr rfl),
   (C9_failure_floor ⟨1, 60, 2⟩).2.2 1 1 (some 0) 5 (by decide)⟩

/-- C5: for every reachable breaker state, (a) from a state OPEN since `t0`
probed past the timeout window, exactly `success_threshold` consecutive
successful calls are needed to reach CLOSED: after `j` of them
(`0 < j < success_threshold`) the breaker is HALF_OPEN with `j` successes,
and after `success_threshold` of them it is CLOSED with both counters
zeroed; (b) from a reachable HALF_OPEN state with `k` successes already
recorded, fewer than `success_threshold - k` further consecutive successes
leave it HALF_OPEN and exactly `success_threshold - k` close it; (c) any
single failed call while HALF_OPEN immediately re-opens the circuit with a
fresh `opened_at` timestamp and the success counter reset to zero. -/
theorem C5_halfOpen_protocol (cfg : BreakerConfig) (b : BreakerState)
    (hreach : ReachableCB cfg b) :
    ((0 < cfg.success_threshold → ∀ t0 now, b.cstate = .opened →
        b.opened_at = some t0 → cfg.timeout * 1000000 < now - t0 →
        (∀ j, 0 < j → j < cfg.success_threshold →
            callsSucc cfg now j b = ⟨b.failures, j, .halfOpen, b.opened_at⟩)
        ∧ callsSucc cfg now cfg.success_threshold b = ⟨0, 0, .closed, b.opened_at⟩)
     ∧ (∀ now, b.cstate = .halfOpen →
        (∀ j, j < cfg.success_threshold - b.successes →
            callsSucc cfg now j b = ⟨b.failures, b.successes + j, .halfOpen, b.opened_at⟩)
        ∧ callsSucc cfg now (cfg.success_threshold - b.successes) b
            = ⟨0, 0, .closed, b.opened_at⟩)
     ∧ (∀ now, b.cstate = .halfOpen →
        cbCall cfg now b false
          = .executed false ⟨b.failures + 1, 0, .opened, some now⟩)) := by
  obtain ⟨h1, h2, h3⟩ := invCB_reachable cfg b hreach
  obtain ⟨f, s, cs, oa⟩ := b
  refine ⟨?_, ?_, ?_⟩
  · intro hpos t0 now hop hoa helapsed
    cases hop
    have hs0 : s = 0 := (h2 rfl).1
    cases hoa
    subst hs0
    have hstep : cbStep cfg ⟨f, 0, .opened, some t0⟩ (now, true)
        = onSuccess cfg ⟨f, 0, .halfOpen, some t0⟩ := by
      unfold cbStep cbCall
      rw [if_pos rfl]
      dsimp only
      rw [if_pos helapsed]
      rfl
    constructor
    · intro j hj0 hjlt
      match j, hj0 with
      | j + 1, _ =>
        rw [callsSucc, hstep]
        have hson : onSuccess cfg ⟨f, 0, .halfOpen, some t0⟩
            = ⟨f, 1, .halfOpen, some t0⟩ := by
          unfold onSuccess
          rw [if_pos rfl, if_neg (by show ¬ cfg.success_threshold ≤ 0 + 1; omega)]
        rw [hson, callsSucc_halfOpen_mid cfg now j f 1 (some t0) (by omega)]
        congr 1
        omega
    · match hthr : cfg.success_threshold, hpos with
      | n + 1, _ =>
        rw [callsSucc, hstep]
        by_cases hone : n = 0
        · subst hone
          have hson : onSuccess cfg ⟨f, 0, .halfOpen, some t0⟩
              = ⟨0, 0, .closed, some t0⟩ := by
            unfold onSuccess
            rw [if_pos rfl, if_pos (by show cfg.success_threshold ≤ 0 + 1; omega)]
          rw [hson, callsSucc]
        · have hson : onSuccess cfg ⟨f, 0, .halfOpen, some t0⟩
              = ⟨f, 1, .halfOpen, some t0⟩ := by
            unfold onSuccess
            rw [if_pos rfl, if_neg (by show ¬ cfg.success_threshold ≤ 0 + 1; omega)]
          rw [hson]
          exact callsSucc_halfOpen_close cfg now n f 1 (some t0) (by omega) (by omega)
  · intro now hho
    cases hho
    have hlt : s < cfg.success_threshold := h3 rfl
    constructor
    · intro j hj
      have hj2 : j < cfg.success_threshold - s := hj
      exact callsSucc_halfOpen_mid cfg now j f s oa (by omega)
    · exact callsSucc_halfOpen_close cfg now (cfg.success_threshold - s) f s oa
        (by omega) (by omega)
  · intro now hho
    cases hho
    exact halfOpen_failure_reopens cfg now f s oa (h1 (Or.inr rfl))

/-- Witness for C5: with configuration `⟨1, 60, 2⟩` (success_threshold 2),
from the reachable HALF_OPEN state with one recorded success, one more
successful call closes the circuit, and a failed call at instant 7
re-opens it. -/
theorem C5_halfOpen_protocol_witness :
    callsSucc ⟨1, 60, 2⟩ 99 (2 - (BreakerState.mk 1 1 .halfOpen (some 0)).successes)
        ⟨1, 1, .halfOpen, some 0⟩ = ⟨0, 0, .closed, some 0⟩
    ∧ cbCall ⟨1, 60, 2⟩ 7 ⟨1, 1, .halfOpen, some 0⟩ false
        = .executed false ⟨2, 0, .opened, some 7⟩ :=
  ⟨((C5_halfOpen_protocol ⟨1, 60, 2⟩ ⟨1, 1, .halfOpen, some 0⟩
      ⟨[(0, false), (60000001, true)], by decide⟩).2.1 99 rfl).2,
   (C5_halfOpen_protocol ⟨1, 60, 2⟩ ⟨1, 1, .halfOpen, some 0⟩
      ⟨[(0, false), (60000001, true)], by decide⟩).2.2 7 rfl⟩

theorem retryLoop_all_fail {σ : Type}
    (acquire : String → σ → Except PyExc RoutingResult × σ) (preferred : String)
    (hfail : ∀ m t, exceptFailed (acquire m t).1 = true) :
    ∀ (n : Nat) (s : σ), ∃ s2, retryLoop acquire preferred n s = (none, s2)
  | 0, s => ⟨s, rfl⟩
  | n + 1, s => by
    rw [retryLoop]
    match hacq : acquire preferred s with
    | (.ok r, s2) =>
      have := hfail preferred s
      rw [hacq] at this
      exact absurd this (by simp [exceptFailed])
    | (.error e, s2) =>
      by_cases hco : e.isCircuitOpen = true
      · exact ⟨s2, by dsimp only; rw [hco]; rfl⟩
      · rw [Bool.not_eq_true] at hco
        dsimp only
        rw [hco]
        exact retryLoop_all_fail acquire preferred hfail n s2

theorem chainLoop_all_fail {σ : Type}
    (acquire : String → σ → Except PyExc RoutingResult × σ)
    (hfail : ∀ m t, exceptFailed (acquire m t).1 = true) :
    ∀ (ms : List String) (s : σ), ∃ s2, chainLoop acquire ms s = (none, s2)
  | [], s => ⟨s, rfl⟩
  | m :: ms, s => by
    rw [chainLoop]
    match hacq : acquire m s with
    | (.ok r, s2) =>
      have := hfail m s
      rw [hacq] at this
      exact absurd this (by simp [exceptFailed])
    | (.error e, s2) =>
      exact chainLoop_all_fail acquire hfail ms s2

/-- C1: `select_with_fallback` cannot raise — the embedding returns a plain
`RoutingResult` for every input because the source catches every exception
of its body — and for ANY behaviour of credential acquisition and the
circuit breaker (any `acquire`, any state) under which every acquisition
call raises, ANY preferred model, ANY fallback chain (present, empty or
absent) and ANY retry count, it returns the hardcoded ultimate FREE-tier
default: model `"opencode-claude"`, `api_key = None`,
`requires_approval = False`. -/
theorem C1_never_raises_ultimate_default {σ : Type}
    (acquire : String → σ → Except PyExc RoutingResult × σ)
    (preferred : String) (fallback_chain : Option (List String))
    (max_retries : Option Int) (s : σ)
    (hfail : ∀ m t, exceptFailed (acquire m t).1 = true) :
    (selectWithFallback acquire preferred fallback_chain max_retries s).1
      = ultimateFallback := by
  unfold selectWithFallback
  dsimp only
  obtain ⟨s1, h1⟩ := retryLoop_all_fail acquire preferred hfail
    (effectiveRetries max_retries).toNat s
  rw [h1]
  match fallback_chain with
  | none => rfl
  | some ms =>
    obtain ⟨s2, h2⟩ := chainLoop_all_fail acquire hfail ms s1
    dsimp only
    rw [h2]

/-- Witness for C1: an acquisition behaviour that always raises
`TypeError`, an empty fallback chain and `max_retries = 7`. -/
theorem C1_never_raises_ultimate_default_witness :
    (selectWithFallback (σ := Unit)
        (fun _ s => (Except.error (PyExc.typeError "boom"), s))
        "gemini-3-pro" (some []) (some 7) ()).1 = ultimateFallback :=
  C1_never_raises_ultimate_default
    (fun _ s => (Except.error (PyExc.typeError "boom"), s))
    "gemini-3-pro" (some []) (some 7) () (fun _ _ => rfl)

theorem retryLoop_log (acquire : String → List String → Except PyExc RoutingResult × List String)
    (preferred : String)
    (hlog : ∀ m l, ∃ e, PyExc.isCircuitOpen e = false ∧ acquire m l = (.error e, l ++ [m])) :
    ∀ (n : Nat) (l : List String),
      retryLoop acquire preferred n l = (none, l ++ List.replicate n preferred)
  | 0, l => by simp [retryLoop]
  | n + 1, l => by
    obtain ⟨e, hco, heq⟩ := hlog preferred l
    rw [retryLoop, heq]
    dsimp only
    rw [hco]
    rw [retryLoop_log acquire preferred hlog n (l ++ [preferred])]
    simp [List.replicate_succ, List.append_assoc]

theorem chainLoop_log (acquire : String → List String → Except PyExc RoutingResult × List String)
    (hlog : ∀ m l, ∃ e, PyExc.isCircuitOpen e = false ∧ acquire m l = (.error e, l ++ [m])) :
    ∀ (ms : List String) (l : List String),
      chainLoop acquire ms l = (none, l ++ ms)
  | [], l => by simp [chainLoop]
  | m :: ms, l => by
    obtain ⟨e, _, heq⟩ := hlog m l
    rw [chainLoop, heq]
    dsimp only
    rw [chainLoop_log acquire hlog ms (l ++ [m])]
    simp

/-- C10: calling `select_with_fallback` with `max_retries = 0` or
`max_retries = None` does not perform zero attempts on the preferred
model: `max_retries or self.MAX_RETRIES` replaces the falsy value by
`MAX_RETRIES = 3`, so (under any acquisition behaviour that records each
attempted model and always fails without a CircuitBreakerOpenError) the
preferred model is attempted exactly 3 times before the fallback chain is
consulted. -/
theorem C10_falsy_retries_default
    (acquire : String → List String → Except PyExc RoutingResult × List String)
    (preferred : String) (chain : List String) (l0 : List String)
    (hlog : ∀ m l, ∃ e, PyExc.isCircuitOpen e = false ∧ acquire m l = (.error e, l ++ [m])) :
    (selectWithFallback acquire preferred (some chain) (some 0) l0).2
        = l0 ++ [preferred, preferred, preferred] ++ chain
    ∧ (selectWithFallback acquire preferred (some chain) none l0).2
        = l0 ++ [preferred, preferred, preferred] ++ chain := by
  constructor
  · unfold selectWithFallback
    dsimp only
    rw [show (effectiveRetries (some 0)).toNat = 3 from rfl]
    rw [retryLoop_log acquire preferred hlog 3 l0]
    dsimp only
    rw [chainLoop_log acquire hlog chain (l0 ++ List.replicate 3 preferred)]
    simp [List.replicate_succ, List.append_assoc]
  · unfold selectWithFallback
    dsimp only
    rw [show (effectiveRetries none).toNat = 3 from rfl]
    rw [retryLoop_log acquire preferred hlog 3 l0]
    dsimp only
    rw [chainLoop_log acquire hlog chain (l0 ++ List.replicate 3 preferred)]
    simp [List.replicate_succ, List.append_assoc]

/-- Witness for C10: the logging behaviour
`fun m l => (TypeError, l ++ [m])`, preferred model `"a"`, chain `["b"]`:
with `max_retries = 0` the call log ends as `["a", "a", "a", "b"]`. -/
theorem C10_falsy_retries_default_witness :
    (selectWithFallback (fun m l => (Except.error (PyExc.typeError "x"), l ++ [m]))
        "a" (some ["b"]) (some 0) ([] : List String)).2 = ["a", "a", "a", "b"] := by
  have h := C10_falsy_retries_default
    (fun m l => (Except.error (PyExc.typeError "x"), l ++ [m])) "a" ["b"] []
    (fun m l => ⟨PyExc.typeError "x", rfl, rfl⟩)
  simpa using h.1

/-- C2 (code bug): for the paid-tier model `"gemini-3-pro"` with a
non-empty `google-ai-pro` pool and a fresh (not open) breaker, a single
acquisition via `_get_model_with_key` DOES select the round-robin entry,
increment its `usage_count`, stamp `last_used` and advance the shared
index — but then raises `TypeError` instead of returning a routing result
with the entry's secret: `_select_key_for_provider` returns the key
string (despite its `Optional[Dict]` annotation) and `_get_key_logic`
evaluates `key_entry["key"]` on it.  The breaker books the exception as a
failure on `provider_google-ai-pro`. -/
theorem C2_paid_acquisition_raises :
    (getModelWithKey 10 0 sampleRouterPaid "gemini-3-pro").1
        = .error (.typeError "string indices must be integers")
    ∧ (getModelWithKey 10 0 sampleRouterPaid "gemini-3-pro").2.keys
        = [⟨"google-ai-pro", "AIzaSyTest1234567890", 1, some 0, none⟩]
    ∧ (getModelWithKey 10 0 sampleRouterPaid "gemini-3-pro").2.current_key_index = 1
    ∧ ((getModelWithKey 10 0 sampleRouterPaid "gemini-3-pro").2.breakers
        "provider_google-ai-pro").failures = 1 :=
  ⟨rfl, rfl, rfl, rfl⟩

/-- C3 (code bug): on a fresh connection, after one `add_task` (one
INSERT) and one `complete_task` (one UPDATE) at instant 0, a
`cleanup_old_tasks(0)` ten seconds later deletes exactly 1 row but
RETURNS 3 — `self.conn.total_changes`, the connection-lifetime change
counter — not the number of rows this call removed.  Moreover a
`cleanup_old_tasks(0)` in the same second as the completion deletes
nothing (the SQL comparison is strict), and a task marked failed via
`fail_task` keeps `completed_at` NULL and is never deleted no matter how
old. -/
theorem C3_cleanup_returns_total_changes :
    sampleQueueDone.tasks.countP (doomedTask 10 0) = 1
    ∧ cleanup_old_tasks 10 sampleQueueDone 0
        = (3, { tasks := [], next_id := 2, total_changes := 3 })
    ∧ (cleanup_old_tasks 0 sampleQueueDone 0).2.tasks ≠ []
    ∧ (cleanup_old_tasks 1000000 sampleQueueFailedT 0).2.tasks
        = sampleQueueFailedT.tasks :=
  ⟨rfl, rfl, by decide, rfl⟩

/-- C8: `detect_interruption()` is false when no run-state file exists,
true on the state written by `mark_running()`, false on the state written
by `mark_shutdown()`, and in general true exactly when the last persisted
record has status `"running"`. -/
theorem C8_detect_interruption :
    detect_interruption none = false
    ∧ (∀ now, detect_interruption (mark_running now) = true)
    ∧ (∀ now, detect_interruption (mark_shutdown now) = false)
    ∧ (∀ st, detect_interruption st = true ↔ ∃ r, st = some r ∧ r.status = "running") := by
  refine ⟨rfl, fun _ => rfl, fun _ => rfl, ?_⟩
  intro st
  constructor
  · intro h
    match st with
    | none => exact absurd h (by simp [detect_interruption])
    | some r =>
      refine ⟨r, rfl, ?_⟩
      have : (r.status == "running") = true := h
      exact eq_of_beq this
  · rintro ⟨r, rfl, hr⟩
    show (r.status == "running") = true
    rw [hr]
    rfl

theorem betterTask_irrefl (a : TaskRow) : betterTask a a = false := by
  simp [betterTask]

theorem betterTask_neg_trans (v u x : TaskRow)
    (h1 : betterTask v u = false) (h2 : betterTask u x = false) :
    betterTask v x = false := by
  simp only [betterTask, Bool.or_eq_false_iff, Bool.and_eq_false_iff,
    decide_eq_false_iff_not] at h1 h2 ⊢
  omega

theorem betterTask_asymm (a b : TaskRow) (h : betterTask a b = true) :
    betterTask b a = false := by
  simp only [betterTask, Bool.or_eq_true, decide_eq_true_eq, Bool.and_eq_true,
    Bool.or_eq_false_iff, Bool.and_eq_false_iff, decide_eq_false_iff_not] at h ⊢
  omega

theorem pickBest_mem : ∀ (l : List TaskRow) (t : TaskRow), pickBest l = some t → t ∈ l
  | [], t, h => by simp [pickBest] at h
  | x :: xs, t, h => by
    rw [pickBest] at h
    match hxs : pickBest xs with
    | none =>
      rw [hxs] at h
      cases h
      exact List.mem_cons_self x xs
    | some u =>
      rw [hxs] at h
      dsimp only at h
      by_cases hb : betterTask u x = true
      · rw [if_pos hb] at h
        cases h
        exact List.mem_cons_of_mem x (pickBest_mem xs t hxs)
      · rw [if_neg hb] at h
        cases h
        exact List.mem_cons_self x xs

theorem pickBest_not_better :
    ∀ (l : List TaskRow) (t : TaskRow), pickBest l = some t →
      ∀ u ∈ l, betterTask u t = false
  | [], t, h => by simp [pickBest] at h
  | x :: xs, t, h => by
    rw [pickBest] at h
    match hxs : pickBest xs with
    | none =>
      rw [hxs] at h
      cases h
      intro u hu
      rcases List.mem_cons.mp hu with rfl | hmem
      · exact betterTask_irrefl u
      · have : xs = [] := by
          cases hxe : xs with
          | nil => rfl
          | cons y ys =>
            rw [hxe, pickBest] at hxs
            match hpb : pickBest ys with
            | none =>
              rw [hpb] at hxs
              exact absurd hxs (by simp)
            | some w =>
              rw [hpb] at hxs
              dsimp only at hxs
              split at hxs <;> exact absurd hxs (by simp)
        rw [this] at hmem
        exact absurd hmem (List.not_mem_nil u)
    | some b =>
      rw [hxs] at h
      dsimp only at h
      by_cases hb : betterTask b x = true
      · rw [if_pos hb] at h
        cases h
        intro u hu
        rcases List.mem_cons.mp hu with rfl | hmem
        · exact betterTask_asymm _ _ hb
        · exact pickBest_not_better xs t hxs u hmem
      · rw [if_neg hb] at h
        cases h
        intro u hu
        rcases List.mem_cons.mp hu with rfl | hmem
        · exact betterTask_irrefl u
        · exact betterTask_neg_trans u b x
            (pickBest_not_better xs b hxs u hmem) (Bool.not_eq_true _ ▸ hb)

theorem pickBest_isSome : ∀ (x : TaskRow) (xs : List TaskRow),
    (pickBest (x :: xs)).isSome = true := by
  intro x xs
  rw [pickBest]
  match pickBest xs with
  | none => rfl
  | some u =>
    dsimp only
    by_cases hb : betterTask u x = true
    · rw [if_pos hb]
      rfl
    · rw [if_neg hb]
      rfl

/-- C6: `get_next_task` is a pure SELECT — it returns a PENDING task (of
the requested assignee when one is given) that no other eligible task
strictly precedes under `ORDER BY priority DESC, created_at ASC`, returns
one whenever an eligible task exists, and leaves the task table (hence
every task's status) unchanged.  Scenario (statuses are transitioned
between dequeues by `start_task`, as `get_next_task` itself never does):
after enqueueing A(LOW, created 1), B(HIGH, created 2), C(HIGH, created
1), successive dequeues return C, then B, then A. -/
theorem C6_dequeue_order :
    (∀ (st : QueueState) (who : Option String) (t : TaskRow),
      (get_next_task st who).1 = some t →
        t ∈ st.tasks ∧ eligibleTask who t = true
          ∧ ∀ u ∈ st.tasks, eligibleTask who u = true → betterTask u t = false)
    ∧ (∀ (st : QueueState) (who : Option String),
        st.tasks.filter (eligibleTask who) ≠ [] →
          ((get_next_task st who).1).isSome = true)
    ∧ (∀ (st : QueueState) (who : Option String), (get_next_task st who).2 = st)
    ∧ ((get_next_task sampleQueueABC none).1).map TaskRow.name = some "C"
    ∧ ((get_next_task (start_task 3 sampleQueueABC 3) none).1).map TaskRow.name
        = some "B"
    ∧ ((get_next_task (start_task 4 (start_task 3 sampleQueueABC 3) 2) none).1).map
        TaskRow.name = some "A" := by
  refine ⟨?_, ?_, fun _ _ => rfl, rfl, rfl, rfl⟩
  · intro st who t h
    have h' : pickBest (st.tasks.filter (eligibleTask who)) = some t := h
    have hmem := pickBest_mem _ t h'
    refine ⟨(List.mem_filter.mp hmem).1, (List.mem_filter.mp hmem).2, ?_⟩
    intro u hu he
    exact pickBest_not_better _ t h' u (List.mem_filter.mpr ⟨hu, he⟩)
  · intro st who hne
    match hf : st.tasks.filter (eligibleTask who) with
    | [] => exact absurd hf hne
    | x :: xs =>
      show (pickBest (st.tasks.filter (eligibleTask who))).isSome = true
      rw [hf]
      exact pickBest_isSome x xs

/-- Witness for C6: at the A/B/C scenario queue, the returned row is the
pending HIGH-priority task C created at instant 1, it is eligible, and no
other eligible row strictly precedes it. -/
theorem C6_dequeue_order_witness :
    (⟨3, "C", "", 2, .pending, none, none, 1, 1, none, none, none⟩ : TaskRow)
        ∈ sampleQueueABC.tasks
    ∧ eligibleTask none ⟨3, "C", "", 2, .pending, none, none, 1, 1, none, none, none⟩ = true
    ∧ ∀ u ∈ sampleQueueABC.tasks, eligibleTask none u = true →
        betterTask u ⟨3, "C", "", 2, .pending, none, none, 1, 1, none, none, none⟩ = false :=
  C6_dequeue_order.1 sampleQueueABC none
    ⟨3, "C", "", 2, .pending, none, none, 1, 1, none, none, none⟩ rfl

theorem filter_updateNthMatch (now : Nat) (prov : String) :
    ∀ (i : Nat) (l : List KeyEntry),
      ((updateNthMatch (providerPred prov) (bumpUsage now) i l).filter
          (providerPred prov)).map KeyEntry.key
        = (l.filter (providerPred prov)).map KeyEntry.key
  | i, [] => by cases i <;> rfl
  | 0, x :: xs => by
    by_cases hpx : providerPred prov x = true
    · have hpb : providerPred prov (bumpUsage now x) = true := hpx
      have hkey : (bumpUsage now x).key = x.key := rfl
      simp [updateNthMatch, List.filter_cons, hpx, hpb, hkey]
    · rw [Bool.not_eq_true] at hpx
      simp [updateNthMatch, List.filter_cons, hpx,
        filter_updateNthMatch now prov 0 xs]
  | i + 1, x :: xs => by
    by_cases hpx : providerPred prov x = true
    · simp [updateNthMatch, List.filter_cons, hpx,
        filter_updateNthMatch now prov i xs]
    · rw [Bool.not_eq_true] at hpx
      simp [updateNthMatch, List.filter_cons, hpx,
        filter_updateNthMatch now prov (i + 1) xs]

theorem getD_map_key : ∀ (l : List KeyEntry) (i : Nat),
    (l.map KeyEntry.key).getD i "" = (l.getD i default).key
  | [], 0 => rfl
  | [], _ + 1 => rfl
  | _ :: _, 0 => rfl
  | _ :: xs, i + 1 => getD_map_key xs i

theorem selectKeyForProvider_eq (now : Nat) (st : RouterState) (prov : String)
    (hn : 0 < (st.keys.filter (providerPred prov)).length) :
    selectKeyForProvider now st prov
      = (some (((st.keys.filter (providerPred prov)).getD
            (st.current_key_index % (st.keys.filter (providerPred prov)).length)
            default).key),
         { keys := updateNthMatch (providerPred prov) (bumpUsage now)
             (st.current_key_index % (st.keys.filter (providerPred prov)).length)
             st.keys
           current_key_index := st.current_key_index + 1
           breakers := st.breakers }) := by
  have hne : (st.keys.filter (providerPred prov)).isEmpty = false := by
    cases h : st.keys.filter (providerPred prov)
    · rw [h] at hn
      simp at hn
    · rfl
  unfold selectKeyForProvider
  dsimp only
  rw [hne]
  rfl

theorem add_mod_small (r j n : Nat) (hr : r < n) (_hj : j < n) :
    (r + j) % n = if r + j < n then r + j else r + j - n := by
  by_cases h : r + j < n
  · rw [if_pos h, Nat.mod_eq_of_lt h]
  · rw [if_neg h, Nat.mod_eq_sub_mod (Nat.le_of_not_lt h),
      Nat.mod_eq_of_lt (by omega)]

theorem shift_mod (i0 j n : Nat) (hn : 0 < n) (hj : j < n) :
    (i0 + j) % n = if i0 % n + j < n then i0 % n + j else i0 % n + j - n := by
  rw [← Nat.mod_add_mod]
  exact add_mod_small (i0 % n) j n (Nat.mod_lt _ hn) hj

theorem roundRobin_count (i0 n : Nat) (hn : 0 < n) :
    ∀ m, m < n → ((List.range n).map (fun j => (i0 + j) % n)).count m = 1 := by
  have hr : i0 % n < n := Nat.mod_lt _ hn
  have hnodup : ((List.range n).map (fun j => (i0 + j) % n)).Nodup := by
    refine List.Nodup.map_on ?_ (List.nodup_range n)
    intro j1 h1 j2 h2 heq
    rw [List.mem_range] at h1 h2
    rw [shift_mod i0 j1 n hn h1, shift_mod i0 j2 n hn h2] at heq
    split_ifs at heq <;> omega
  intro m hm
  refine List.count_eq_one_of_mem hnodup ?_
  rw [List.mem_map]
  by_cases hc : i0 % n ≤ m
  · refine ⟨m - i0 % n, List.mem_range.mpr (by omega), ?_⟩
    rw [shift_mod i0 (m - i0 % n) n hn (by omega)]
    split_ifs <;> omega
  · refine ⟨m + n - i0 % n, List.mem_range.mpr (by omega), ?_⟩
    rw [shift_mod i0 (m + n - i0 % n) n hn (by omega)]
    split_ifs <;> omega

theorem selectKeys_spec (now : Nat) (prov : String) :
    ∀ (c : Nat) (st : RouterState),
      0 < (st.keys.filter (providerPred prov)).length →
      (selectKeys now prov c st).1
        = (List.range c).map (fun j =>
            some (((st.keys.filter (providerPred prov)).map KeyEntry.key).getD
              ((st.current_key_index + j) % (st.keys.filter (providerPred prov)).length)
              ""))
  | 0, st, _ => rfl
  | c + 1, st, hn => by
    rw [selectKeys, selectKeyForProvider_eq now st prov hn]
    dsimp only
    have hkeys := filter_updateNthMatch now prov
      (st.current_key_index % (st.keys.filter (providerPred prov)).length) st.keys
    have hlen : ((updateNthMatch (providerPred prov) (bumpUsage now)
        (st.current_key_index % (st.keys.filter (providerPred prov)).length)
        st.keys).filter (providerPred prov)).length
        = (st.keys.filter (providerPred prov)).length := by
      have := congrArg List.length hkeys
      simpa using this
    have ih := selectKeys_spec now prov c
      { keys := updateNthMatch (providerPred prov) (bumpUsage now)
          (st.current_key_index % (st.keys.filter (providerPred prov)).length)
          st.keys
        current_key_index := st.current_key_index + 1
        breakers := st.breakers }
      (by dsimp only; omega)
    match hsel : selectKeys now prov c
      { keys := updateNthMatch (providerPred prov) (bumpUsage now)
          (st.current_key_index % (st.keys.filter (providerPred prov)).length)
          st.keys
        current_key_index := st.current_key_index + 1
        breakers := st.breakers } with
    | (rest, st2) =>
      rw [hsel] at ih
      dsimp only
      dsimp only at ih
      rw [ih, hkeys, hlen]
      rw [List.range_succ_eq_map, List.map_cons, List.map_map]
      rw [← getD_map_key]
      have hz : st.current_key_index + 0 = st.current_key_index := Nat.add_zero _
      rw [hz]
      have hfun :
          ((fun j => some (((st.keys.filter (providerPred prov)).map KeyEntry.key).getD
              ((st.current_key_index + j) % (st.keys.filter (providerPred prov)).length)
              "")) ∘ Nat.succ)
          = (fun j => some (((st.keys.filter (providerPred prov)).map KeyEntry.key).getD
              ((st.current_key_index + 1 + j) % (st.keys.filter (providerPred prov)).length)
              "")) := by
        funext j
        show some _ = some _
        rw [show st.current_key_index + Nat.succ j = st.current_key_index + 1 + j from by omega]
      rw [hfun]

/-- C7: for a provider with `N ≥ 1` pool entries, `N` consecutive
`_select_key_for_provider` calls (no interleaved providers, no
`mark_rate_limited`) return the pool's key strings in stable cyclic order
starting at `current_key_index % N` — the `j`-th call returns the key at
index `(current_key_index + j) % N` of the filtered pool — and those `N`
indices hit every one of the `N` credentials exactly once.  Scenario: two
credentials `k1`, `k2` for provider `"p"` and 5 sequential acquisitions
yield `[k1, k2, k1, k2, k1]`. -/
theorem C7_round_robin (now : Nat) (st : RouterState) (prov : String)
    (hn : 0 < (st.keys.filter (providerPred prov)).length) :
    ((selectKeys now prov (st.keys.filter (providerPred prov)).length st).1
        = (List.range (st.keys.filter (providerPred prov)).length).map (fun j =>
            some (((st.keys.filter (providerPred prov)).map KeyEntry.key).getD
              ((st.current_key_index + j) % (st.keys.filter (providerPred prov)).length)
              "")))
    ∧ (∀ m, m < (st.keys.filter (providerPred prov)).length →
        ((List.range (st.keys.filter (providerPred prov)).length).map (fun j =>
            (st.current_key_index + j) % (st.keys.filter (providerPred prov)).length)).count m
          = 1)
    ∧ (selectKeys 5 "p" 5 samplePool2).1
        = [some "k1", some "k2", some "k1", some "k2", some "k1"] :=
  ⟨selectKeys_spec now prov _ st hn,
   roundRobin_count st.current_key_index _ hn,
   rfl⟩

/-- Witness for C7 at the two-credential pool: the first two selections
return `k1`, `k2` (the general theorem instantiated at `samplePool2`,
presented through its range-map form), and index 1 is selected exactly
once in a full cycle. -/
theorem C7_round_robin_witness :
    ((selectKeys 9 "p" (samplePool2.keys.filter (providerPred "p")).length samplePool2).1
        = (List.range (samplePool2.keys.filter (providerPred "p")).length).map (fun j =>
            some (((samplePool2.keys.filter (providerPred "p")).map KeyEntry.key).getD
              ((samplePool2.current_key_index + j) %
                (samplePool2.keys.filter (providerPred "p")).length)
              "")))
    ∧ ((List.range (samplePool2.keys.filter (providerPred "p")).length).map (fun j =>
          (samplePool2.current_key_index + j) %
            (samplePool2.keys.filter (providerPred "p")).length)).count 1 = 1 :=
  ⟨(C7_round_robin 9 samplePool2 "p" (by decide)).1,
   (C7_round_robin 9 samplePool2 "p" (by decide)).2.1 1 (by decide)⟩
